import Mathlib

/-
Verification development for notify-matrix-join.py, a bot that watches a
matrix space and a list of rooms for membership events, invites new space
joiners into configured rooms, and sends a notification email for new
members.  The script is embedded shallowly: every HTTP interaction is
abstracted as an environment (a function from the request parameters to the
decoded response), and each Python function of the script becomes a Lean
function over that environment.  Global mutable state (watched_room_ids,
to_invite_ids, space_id) is threaded explicitly as a RegistryState value.
-/

/-- Primitive JSON leaf value as decoded by json.loads (Python None, bool,
int, str).  Room identifiers, room names and user identifiers read from
server responses are such leaves; the script never inspects their structure,
it only compares them for equality and interpolates them into URLs. -/
inductive PyVal where
  | null
  | bool (b : Bool)
  | num (n : Int)
  | str (s : String)
  deriving DecidableEq, Repr

/-- HTTP response as seen by the script: a status code and a decoded body.
The body type is specific to the endpoint being queried. -/
structure HttpResponse (β : Type) where
  status_code : Nat
  body : β
  deriving DecidableEq, Repr

/-- Decoded body of a GET rooms/ROOM_ID/members response.  The script runs
json.loads on the text, selects field chunk, and maps each element umap to
umap of key user_id, all inside a try/except.  Constructor malformed covers
every body on which json.loads itself or the chunk lookup raises (invalid
JSON, a non-dict top level, a missing chunk key, or a chunk value whose
iteration raises).  Constructor chunk lists, per element of the chunk array,
the value of its user_id key, or none when that lookup raises (missing key
or non-dict element). -/
inductive MembersBody where
  | malformed
  | chunk (umaps : List (Option PyVal))
  deriving DecidableEq, Repr

/-- Decoded body of a GET joined_rooms response.  Constructor malformed
covers every body on which json.loads or the joined_rooms lookup raises
(this is caught by the script).  Constructor notIterable covers a
joined_rooms value the for-loop cannot iterate, which raises OUTSIDE any
try/except.  Constructor rooms gives the iterated room ids. -/
inductive JoinedRoomsBody where
  | malformed
  | notIterable
  | rooms (roomIds : List PyVal)
  deriving DecidableEq, Repr

/-- Decoded body of a GET rooms/ROOM_ID/state/m.room.name response.
Constructor malformed covers every body on which json.loads or the name
lookup raises; in the script this lookup is NOT inside a try/except, so it
propagates.  Constructor name gives the room name value. -/
inductive NameBody where
  | malformed
  | name (v : PyVal)
  deriving DecidableEq, Repr

/-- Outcome of requests.Session.post for an invite: either the server
returned a response with some status code (requests does not raise for
error statuses, and the script never reads the response), or the request
raised an exception (connection error, timeout), which the script does not
catch. -/
inductive InviteOutcome where
  | resp (status_code : Nat)
  | exn
  deriving DecidableEq, Repr

/-- Abstraction of the matrix server for the GET endpoints the script uses.
Each field maps the request parameters appearing in the corresponding URL to
the decoded response. -/
structure MatrixEnv where
  /-- GET homeserver/_matrix/client/v3/rooms/ROOM_ID/members with a
  membership filter; the script always passes the filter join. -/
  membersResp : PyVal → String → HttpResponse MembersBody
  /-- GET homeserver/_matrix/client/v3/joined_rooms -/
  joinedRoomsResp : HttpResponse JoinedRoomsBody
  /-- GET homeserver/_matrix/client/v3/rooms/ROOM_ID/state/m.room.name -/
  nameResp : PyVal → HttpResponse NameBody

/-- Configuration relevant to the decision logic, from the command line:
the space name, the watch name list and the invite name list (lines
106-114 of the script). -/
structure Config where
  space : String
  watch : List String
  invite : List String
  deriving DecidableEq, Repr

/-- Line 106-108: watched_rooms = the space name followed by the configured
watch names.  (With --matrixwatch absent or empty the Python condition on
line 107 is falsy either way, so the list is just the space name.) -/
def watched_rooms (cfg : Config) : List String :=
  cfg.space :: cfg.watch

/-- Line 109-111: to_invite = the configured invite names. -/
def to_invite (cfg : Config) : List String :=
  cfg.invite

/-- The three module-level mutable registry variables (lines 112-114):
space_id (initially None), watched_room_ids and to_invite_ids (initially
empty). -/
structure RegistryState where
  watched_room_ids : List PyVal
  to_invite_ids : List PyVal
  space_id : Option PyVal
  deriving DecidableEq, Repr

/-- Initial registry state (lines 112-114). -/
def initialRegistry : RegistryState :=
  { watched_room_ids := [], to_invite_ids := [], space_id := none }

/-- The list comprehension on line 122: collect the user_id values of the
chunk elements; the comprehension raises (here: none) as soon as one
element lacks a user_id. -/
def extract_user_ids : List (Option PyVal) → Option (List PyVal)
  | [] => some []
  | some v :: rest => (extract_user_ids rest).map (fun tl => v :: tl)
  | none :: _ => none

/-- Lines 116-126, room_members(room_id): query the members of a room with
membership filter join; on a non-200 status return the empty list, on a
body whose decoding raises return the empty list (the exception is caught
on line 123), otherwise return the collected user_id values. -/
def room_members (env : MatrixEnv) (room_id : PyVal) : List PyVal :=
  let r := env.membersResp room_id "join"
  if r.status_code ≠ 200 then []
  else
    match r.body with
    | MembersBody.malformed => []
    | MembersBody.chunk umaps =>
      match extract_user_ids umaps with
      | none => []
      | some members => members

/-- The loop body of populate_watched_room_ids (lines 141-155), threading
the registry state through the iterated room ids.  For each room id the
script fetches the room name state; a non-200 response is skipped (rooms do
not have to have a name, line 143-145); a 200 response whose decoding
raises propagates the exception (line 146 is not inside a try/except),
leaving the state as mutated so far and the Bool flag true; otherwise the
room id is appended to watched_room_ids when the name is a configured
watched name (line 148-150), space_id is overwritten when the name equals
the configured space name (line 151-152), and the room id is appended to
to_invite_ids when the name is a configured invite name (line 153-155). -/
def scan_rooms (env : MatrixEnv) (cfg : Config) :
    List PyVal → RegistryState → RegistryState × Bool
  | [], st => (st, false)
  | room_id :: rest, st =>
    let r := env.nameResp room_id
    if r.status_code ≠ 200 then scan_rooms env cfg rest st
    else
      match r.body with
      | NameBody.malformed => (st, true)
      | NameBody.name room_name =>
        let st1 :=
          if room_name ∈ (watched_rooms cfg).map PyVal.str then
            { st with watched_room_ids := st.watched_room_ids ++ [room_id] }
          else st
        let st2 :=
          if room_name = PyVal.str cfg.space then
            { st1 with space_id := some room_id }
          else st1
        let st3 :=
          if room_name ∈ (to_invite cfg).map PyVal.str then
            { st2 with to_invite_ids := st2.to_invite_ids ++ [room_id] }
          else st2
        scan_rooms env cfg rest st3

/-- Lines 128-157, populate_watched_room_ids(): list the rooms the bot has
joined and resolve the configured names against them.  On a non-200 status
or a body whose decoding raises, return with the registry untouched (lines
132-138; the exception is caught).  Otherwise watched_room_ids and
to_invite_ids are reset to empty (lines 139-140) — space_id is NOT reset —
and the joined rooms are scanned.  A joined_rooms value that cannot be
iterated raises on line 141, after the reset; the Bool result records such
an uncaught exception.  (The final length check on lines 156-157 only
prints a diagnostic and is not modelled.) -/
def populate_watched_room_ids (env : MatrixEnv) (cfg : Config)
    (st : RegistryState) : RegistryState × Bool :=
  let r := env.joinedRoomsResp
  if r.status_code ≠ 200 then (st, false)
  else
    match r.body with
    | JoinedRoomsBody.malformed => (st, false)
    | JoinedRoomsBody.notIterable =>
      ({ st with watched_room_ids := [], to_invite_ids := [] }, true)
    | JoinedRoomsBody.rooms room_ids =>
      scan_rooms env cfg room_ids
        { st with watched_room_ids := [], to_invite_ids := [] }

/-- Lines 159-166, user_already_known(user_id, exclude_room=None): walk the
watched room ids, skipping the excluded room, and return True as soon as
the user appears in the member list of one of them; return False when the
walk is exhausted.  The Python default argument None corresponds to
PyVal.null (the one caller passes the room id of the event room
explicitly). -/
def user_already_known (env : MatrixEnv) (watched_room_ids : List PyVal)
    (user_id : PyVal) (exclude_room : PyVal := PyVal.null) : Bool :=
  match watched_room_ids with
  | [] => false
  | room_id :: rest =>
    if exclude_room = room_id then
      user_already_known env rest user_id exclude_room
    else if user_id ∈ room_members env room_id then true
    else user_already_known env rest user_id exclude_room

/-- Instrumented copy of user_already_known that additionally records, in
order, the room ids for which room_members is queried; the loop stops at
the first membership hit, so rooms after it are never queried. -/
def user_already_known_trace (env : MatrixEnv)
    (watched_room_ids : List PyVal) (user_id : PyVal)
    (exclude_room : PyVal) : Bool × List PyVal :=
  match watched_room_ids with
  | [] => (false, [])
  | room_id :: rest =>
    if exclude_room = room_id then
      user_already_known_trace env rest user_id exclude_room
    else if user_id ∈ room_members env room_id then (true, [room_id])
    else
      let p := user_already_known_trace env rest user_id exclude_room
      (p.1, room_id :: p.2)

/-- The room argument of the notify handler (a nio MatrixRoom): the fields
the handler reads are room_id and display_name, both strings. -/
structure RoomInfo where
  room_id : String
  display_name : String
  deriving DecidableEq, Repr

/-- The event argument of the notify handler (a nio RoomMemberEvent): the
handler reads membership (a string), prev_membership (a string or None),
state_key (the subject user id, a string) and content, of which only the
displayname key is used; displayname here is the value of that key, or none
when the key is absent (in which case the lookup on lines 193-194 raises
inside the try block). -/
structure MemberEvent where
  state_key : String
  membership : String
  prev_membership : Option String
  displayname : Option PyVal
  deriving DecidableEq, Repr

/-- Environment of one notify invocation: the matrix GET endpoints (used
via room_members inside user_already_known), the outcome of each invite
POST (keyed by target room id and invited user id, lines 186-188), and
whether the SMTP session on lines 199-206 completes without raising. -/
structure NotifyEnv where
  matrix : MatrixEnv
  inviteOutcome : PyVal → String → InviteOutcome
  emailSendOk : Bool

/-- Observable outcome of one notify invocation.  sawJoin records that the
event was classified as a join (the log on line 178); knownSkip that the
already-known branch was taken (line 180); invites lists, in order, the
invite POSTs issued on line 188 as pairs of target room id and invited user
id; emailAttempted that the try block on line 191 was entered; emailSent
that sendmail on line 204 completed; raised that an exception propagated
out of the handler. -/
structure NotifyResult where
  sawJoin : Bool
  knownSkip : Bool
  invites : List (PyVal × String)
  emailAttempted : Bool
  emailSent : Bool
  raised : Bool
  deriving DecidableEq, Repr

/-- The invite loop on lines 187-188: one POST per entry of to_invite_ids,
in order.  The response of each POST is assigned and never inspected, so
the loop continues whatever the status code; but a POST that raises aborts
the loop (there is no try/except around it), with the earlier attempts
already issued.  Returns the attempts issued and whether the loop raised. -/
def run_invites (env : NotifyEnv) (user_id : String) :
    List PyVal → List (PyVal × String) × Bool
  | [] => ([], false)
  | rid :: rest =>
    match env.inviteOutcome rid user_id with
    | InviteOutcome.resp _ =>
      let p := run_invites env user_id rest
      ((rid, user_id) :: p.1, p.2)
    | InviteOutcome.exn => ([(rid, user_id)], true)

/-- Lines 176-209, the notify event handler.  Line 177 classifies the event
as a join iff membership is the string join and differs from
prev_membership.  For a classified join, line 179 consults
user_already_known with the event room excluded; a known user is only
logged (line 180).  Otherwise, if the event room id equals space_id, the
invite loop runs (lines 184-188; an invite POST that raises propagates out
of the handler, skipping everything after it).  Then, if the display name
of the event room is one of the configured watched names (line 190), the
email block is attempted; every exception inside it — including the
displayname lookup on lines 193-194 and the SMTP session — is caught on
line 208, so the handler returns normally from that branch. -/
def notify (cfg : Config) (env : NotifyEnv) (st : RegistryState)
    (room : RoomInfo) (event : MemberEvent) : NotifyResult :=
  if event.membership = "join" ∧ some event.membership ≠ event.prev_membership then
    if user_already_known env.matrix st.watched_room_ids
        (PyVal.str event.state_key) (PyVal.str room.room_id) then
      { sawJoin := true, knownSkip := true, invites := [],
        emailAttempted := false, emailSent := false, raised := false }
    else
      let inv :=
        if st.space_id = some (PyVal.str room.room_id) then
          run_invites env event.state_key st.to_invite_ids
        else ([], false)
      if inv.2 then
        { sawJoin := true, knownSkip := false, invites := inv.1,
          emailAttempted := false, emailSent := false, raised := true }
      else if room.display_name ∈ watched_rooms cfg then
        { sawJoin := true, knownSkip := false, invites := inv.1,
          emailAttempted := true,
          emailSent := event.displayname.isSome && env.emailSendOk,
          raised := false }
      else
        { sawJoin := true, knownSkip := false, invites := inv.1,
          emailAttempted := false, emailSent := false, raised := false }
  else
    { sawJoin := false, knownSkip := false, invites := [],
      emailAttempted := false, emailSent := false, raised := false }

/-- One notify invocation per delivered event, in delivery order: the event
loop hands each membership event to the handler in turn (the registry state
is only written by the startup hook, so it is constant across the events
considered here). -/
def run_events (cfg : Config) (env : NotifyEnv) (st : RegistryState) :
    List (RoomInfo × MemberEvent) → List NotifyResult
  | [] => []
  | (room, event) :: rest =>
    notify cfg env st room event :: run_events cfg env st rest

/-! Helper lemmas about the dedup oracle. -/

lemma user_already_known_iff (env : MatrixEnv) (u ex : PyVal) :
    ∀ ids : List PyVal,
      user_already_known env ids u ex = true ↔
        ∃ r, r ∈ ids ∧ r ≠ ex ∧ u ∈ room_members env r
  | [] => by simp [user_already_known]
  | rid :: rest => by
    rw [user_already_known]
    by_cases hex : ex = rid
    · simp only [if_pos hex, user_already_known_iff env u ex rest]
      constructor
      · rintro ⟨r, hr, hne, hm⟩; exact ⟨r, List.mem_cons_of_mem _ hr, hne, hm⟩
      · rintro ⟨r, hr, hne, hm⟩
        rcases List.mem_cons.mp hr with h | h
        · exact absurd (h.trans hex.symm) hne
        · exact ⟨r, h, hne, hm⟩
    · by_cases hm : u ∈ room_members env rid
      · rw [if_neg hex, if_pos hm]
        exact ⟨fun _ => ⟨rid, List.mem_cons_self _ _, fun h => hex h.symm, hm⟩,
          fun _ => rfl⟩
      · simp only [if_neg hex, if_neg hm, user_already_known_iff env u ex rest]
        constructor
        · rintro ⟨r, hr, hne, hmem⟩; exact ⟨r, List.mem_cons_of_mem _ hr, hne, hmem⟩
        · rintro ⟨r, hr, hne, hmem⟩
          rcases List.mem_cons.mp hr with h | h
          · exact absurd (h ▸ hmem) hm
          · exact ⟨r, h, hne, hmem⟩

lemma user_already_known_trace_fst (env : MatrixEnv) (u ex : PyVal) :
    ∀ ids : List PyVal,
      (user_already_known_trace env ids u ex).1 = user_already_known env ids u ex
  | [] => rfl
  | rid :: rest => by
    rw [user_already_known_trace, user_already_known]
    by_cases hex : ex = rid
    · simp only [if_pos hex, user_already_known_trace_fst env u ex rest]
    · by_cases hm : u ∈ room_members env rid
      · simp only [if_neg hex, if_pos hm]
      · simp only [if_neg hex, if_neg hm, user_already_known_trace_fst env u ex rest]

lemma user_already_known_trace_first_hit (env : MatrixEnv) (u ex : PyVal) :
    ∀ (l₁ : List PyVal) (r : PyVal) (l₂ : List PyVal),
      r ≠ ex → u ∈ room_members env r →
      (∀ r' ∈ l₁, r' = ex ∨ u ∉ room_members env r') →
      user_already_known_trace env (l₁ ++ r :: l₂) u ex =
        (true, l₁.filter (fun x => decide (x ≠ ex)) ++ [r])
  | [], r, l₂, hne, hm, _ => by
    rw [List.nil_append, user_already_known_trace, if_neg hne.symm, if_pos hm]
    simp
  | x :: l₁, r, l₂, hne, hm, hfirst => by
    have hx := hfirst x (List.mem_cons_self _ _)
    have htl : ∀ r' ∈ l₁, r' = ex ∨ u ∉ room_members env r' :=
      fun r' hr' => hfirst r' (List.mem_cons_of_mem _ hr')
    rw [List.cons_append, user_already_known_trace]
    by_cases hex : ex = x
    · rw [if_pos hex,
        user_already_known_trace_first_hit env u ex l₁ r l₂ hne hm htl]
      subst hex
      simp [List.filter_cons]
    · have hxmem : u ∉ room_members env x := by
        rcases hx with hx | hx
        · exact absurd hx.symm hex
        · exact hx
      have hxex : ¬(x = ex) := fun h => hex h.symm
      rw [if_neg hex, if_neg hxmem,
        user_already_known_trace_first_hit env u ex l₁ r l₂ hne hm htl]
      simp [List.filter_cons, hxex]

/-- Claim C6: room_members never raises to its caller (it is a total
function); it returns the empty list whenever the HTTP query has a non-200
status or the body fails to decode as the expected JSON shape, and when the
query (which carries the membership filter join) succeeds with a
well-formed chunk it returns exactly the user_id values of that chunk. -/
theorem room_members_total_and_degrades (env : MatrixEnv) (room_id : PyVal) :
    ((env.membersResp room_id "join").status_code ≠ 200 →
      room_members env room_id = []) ∧
    ((env.membersResp room_id "join").body = MembersBody.malformed →
      room_members env room_id = []) ∧
    (∀ umaps, (env.membersResp room_id "join").body = MembersBody.chunk umaps →
      extract_user_ids umaps = none → room_members env room_id = []) ∧
    (∀ umaps ms, (env.membersResp room_id "join").status_code = 200 →
      (env.membersResp room_id "join").body = MembersBody.chunk umaps →
      extract_user_ids umaps = some ms → room_members env room_id = ms) := by
  refine ⟨fun h => ?_, fun h => ?_, fun umaps hb hex => ?_,
    fun umaps ms h200 hb hex => ?_⟩
  · simp [room_members, h]
  · by_cases h200 : (env.membersResp room_id "join").status_code = 200
    · simp [room_members, h200, h]
    · simp [room_members, h200]
  · by_cases h200 : (env.membersResp room_id "join").status_code = 200
    · simp [room_members, h200, hb, hex]
    · simp [room_members, h200]
  · simp [room_members, h200, hb, hex]

/-- Environment for the witnesses below: the room with id r1 has the single
join member u1, every other query fails. -/
def wMembersEnv : MatrixEnv :=
  { membersResp := fun rid _m =>
      if rid = PyVal.str "!r1" then
        ⟨200, MembersBody.chunk [some (PyVal.str "@u1")]⟩
      else ⟨404, MembersBody.malformed⟩,
    joinedRoomsResp := ⟨404, JoinedRoomsBody.malformed⟩,
    nameResp := fun _ => ⟨404, NameBody.malformed⟩ }

/-- Witness for claim C6 at a concrete successful query. -/
theorem room_members_total_and_degrades_witness :
    room_members wMembersEnv (PyVal.str "!r1") = [PyVal.str "@u1"] ∧
    room_members wMembersEnv (PyVal.str "!r2") = [] :=
  ⟨(room_members_total_and_degrades wMembersEnv (PyVal.str "!r1")).2.2.2
      [some (PyVal.str "@u1")] [PyVal.str "@u1"] (by decide) (by decide)
      (by decide),
    (room_members_total_and_degrades wMembersEnv (PyVal.str "!r2")).1
      (by decide)⟩

/-- Claim C3: user_already_known returns true iff the user appears in the
member list of some watched room other than the excluded one; the
instrumented copy computes the same answer and, when some non-excluded
watched room contains the user, it queries exactly the non-excluded rooms
up to and including the first such room, returning true there. -/
theorem user_already_known_correct (env : MatrixEnv) (ids : List PyVal)
    (u ex : PyVal) :
    (user_already_known env ids u ex = true ↔
      ∃ r, r ∈ ids ∧ r ≠ ex ∧ u ∈ room_members env r) ∧
    (user_already_known_trace env ids u ex).1 =
      user_already_known env ids u ex ∧
    (∀ (l₁ : List PyVal) (r : PyVal) (l₂ : List PyVal),
      ids = l₁ ++ r :: l₂ → r ≠ ex → u ∈ room_members env r →
      (∀ r' ∈ l₁, r' = ex ∨ u ∉ room_members env r') →
      user_already_known_trace env ids u ex =
        (true, l₁.filter (fun x => decide (x ≠ ex)) ++ [r])) :=
  ⟨user_already_known_iff env u ex ids,
    user_already_known_trace_fst env u ex ids,
    fun l₁ r l₂ hsplit hne hm hfirst => by
      subst hsplit
      exact user_already_known_trace_first_hit env u ex l₁ r l₂ hne hm hfirst⟩

/-- Witness for claim C3: with watched rooms e (excluded) and r1, user u1
is found in r1, the trace shows only r1 was queried, and the
iff-characterisation holds at this input. -/
theorem user_already_known_correct_witness :
    user_already_known wMembersEnv [PyVal.str "!e", PyVal.str "!r1"]
      (PyVal.str "@u1") (PyVal.str "!e") = true ∧
    user_already_known_trace wMembersEnv [PyVal.str "!e", PyVal.str "!r1"]
      (PyVal.str "@u1") (PyVal.str "!e") = (true, [PyVal.str "!r1"]) :=
  ⟨(user_already_known_correct wMembersEnv [PyVal.str "!e", PyVal.str "!r1"]
      (PyVal.str "@u1") (PyVal.str "!e")).1.mpr
      ⟨PyVal.str "!r1", by decide, by decide, by decide⟩,
    (user_already_known_correct wMembersEnv [PyVal.str "!e", PyVal.str "!r1"]
      (PyVal.str "@u1") (PyVal.str "!e")).2.2 [PyVal.str "!e"]
      (PyVal.str "!r1") [] rfl (by decide) (by decide) (by decide)⟩

/-- Notify environment for witnesses: the matrix side is wMembersEnv, every
invite POST returns 200, the SMTP session succeeds. -/
def wNotifyEnv : NotifyEnv :=
  { matrix := wMembersEnv,
    inviteOutcome := fun _ _ => InviteOutcome.resp 200,
    emailSendOk := true }

/-- Configuration for witnesses: space name Space, one watched room name
Room2, one invite name Target. -/
def wConfig : Config :=
  { space := "Space", watch := ["Room2"], invite := ["Target"] }

/-- Registry for the known-user witness: room r1 is watched, room t is an
invite target, and the event room r2 is the space, so both side-effect
branches would fire if the user were new. -/
def wKnownSt : RegistryState :=
  { watched_room_ids := [PyVal.str "!r1"],
    to_invite_ids := [PyVal.str "!t"],
    space_id := some (PyVal.str "!r2") }

/-- Claim C1: for a classified join whose subject is already known in some
other watched room, the handler only logs — it issues no invite and sends
no email. -/
theorem notify_known_user_no_side_effects (cfg : Config) (env : NotifyEnv)
    (st : RegistryState) (room : RoomInfo) (event : MemberEvent)
    (hjoin : event.membership = "join")
    (hprev : some event.membership ≠ event.prev_membership)
    (hknown : user_already_known env.matrix st.watched_room_ids
      (PyVal.str event.state_key) (PyVal.str room.room_id) = true) :
    notify cfg env st room event =
      { sawJoin := true, knownSkip := true, invites := [],
        emailAttempted := false, emailSent := false, raised := false } := by
  rw [notify, if_pos ⟨hjoin, hprev⟩, if_pos hknown]

/-- Witness for claim C1: user u1 is a member of watched room r1 and joins
room r2 (the space, with an invite target configured and the room name
watched): nothing is issued. -/
theorem notify_known_user_no_side_effects_witness :
    user_already_known wMembersEnv [PyVal.str "!r1"] (PyVal.str "@u1")
      (PyVal.str "!r2") = true ∧
    notify wConfig wNotifyEnv wKnownSt ⟨"!r2", "Room2"⟩
        ⟨"@u1", "join", none, some (PyVal.str "U")⟩ =
      { sawJoin := true, knownSkip := true, invites := [],
        emailAttempted := false, emailSent := false, raised := false } :=
  ⟨by decide,
    notify_known_user_no_side_effects wConfig wNotifyEnv wKnownSt
      ⟨"!r2", "Room2"⟩ ⟨"@u1", "join", none, some (PyVal.str "U")⟩
      rfl (by decide) (by decide)⟩

/-- Claim C2: the handler enters the join branch (and with it the dedup
check) exactly when the new membership is join and differs from the
previous membership; every other event produces no side effect at all. -/
theorem notify_join_classification (cfg : Config) (env : NotifyEnv)
    (st : RegistryState) (room : RoomInfo) (event : MemberEvent) :
    ((notify cfg env st room event).sawJoin = true ↔
      event.membership = "join" ∧
        some event.membership ≠ event.prev_membership) ∧
    (¬(event.membership = "join" ∧
        some event.membership ≠ event.prev_membership) →
      notify cfg env st room event =
        { sawJoin := false, knownSkip := false, invites := [],
          emailAttempted := false, emailSent := false, raised := false }) := by
  constructor
  · by_cases hc : event.membership = "join" ∧
        some event.membership ≠ event.prev_membership
    · have hsaw : (notify cfg env st room event).sawJoin = true := by
        simp only [notify, if_pos hc]
        split_ifs <;> rfl
      exact iff_of_true hsaw hc
    · have hsaw : (notify cfg env st room event).sawJoin = false := by
        rw [notify, if_neg hc]
      exact iff_of_false (by rw [hsaw]; exact Bool.false_ne_true) hc
  · intro hc
    rw [notify, if_neg hc]

/-- Witness for claim C2 at a duplicate join delivery (previous membership
already join): the handler does nothing. -/
theorem notify_join_classification_witness :
    notify wConfig wNotifyEnv wKnownSt ⟨"!r2", "Room2"⟩
        ⟨"@u9", "join", some "join", none⟩ =
      { sawJoin := false, knownSkip := false, invites := [],
        emailAttempted := false, emailSent := false, raised := false } :=
  (notify_join_classification wConfig wNotifyEnv wKnownSt ⟨"!r2", "Room2"⟩
    ⟨"@u9", "join", some "join", none⟩).2 (by decide)

/-- Claim C10: with an empty resolved watched-room set the dedup oracle
answers false for every user and every exclusion, so every classified join
is treated as new and reaches the side-effect branch. -/
theorem empty_watchset_all_users_new (env : MatrixEnv) (u ex : PyVal)
    (cfg : Config) (nenv : NotifyEnv) (st : RegistryState) (room : RoomInfo)
    (event : MemberEvent) :
    user_already_known env [] u ex = false ∧
    (st.watched_room_ids = [] → event.membership = "join" →
      some event.membership ≠ event.prev_membership →
      (notify cfg nenv st room event).sawJoin = true ∧
      (notify cfg nenv st room event).knownSkip = false) := by
  refine ⟨rfl, fun hempty hjoin hprev => ?_⟩
  have hknown : user_already_known nenv.matrix st.watched_room_ids
      (PyVal.str event.state_key) (PyVal.str room.room_id) = false := by
    rw [hempty]; rfl
  have hc : event.membership = "join" ∧
      some event.membership ≠ event.prev_membership := ⟨hjoin, hprev⟩
  simp only [notify, if_pos hc, hknown, if_neg Bool.false_ne_true]
  split_ifs <;> exact ⟨rfl, rfl⟩

/-- Registry with an empty watched-room id set, as after a failed or absent
resolution. -/
def wEmptySt : RegistryState :=
  { watched_room_ids := [],
    to_invite_ids := [PyVal.str "!t"],
    space_id := some (PyVal.str "!r2") }

/-- Witness for claim C10: with no watched room ids, a join by a user who
is in fact a member of room r1 still reaches the side-effect branch. -/
theorem empty_watchset_all_users_new_witness :
    user_already_known wMembersEnv [] (PyVal.str "@u1") (PyVal.str "!r2")
      = false ∧
    (notify wConfig wNotifyEnv wEmptySt ⟨"!r2", "Room2"⟩
        ⟨"@u1", "join", none, some (PyVal.str "U")⟩).sawJoin = true ∧
    (notify wConfig wNotifyEnv wEmptySt ⟨"!r2", "Room2"⟩
        ⟨"@u1", "join", none, some (PyVal.str "U")⟩).knownSkip = false :=
  ⟨(empty_watchset_all_users_new wMembersEnv (PyVal.str "@u1")
      (PyVal.str "!r2") wConfig wNotifyEnv wEmptySt ⟨"!r2", "Room2"⟩
      ⟨"@u1", "join", none, some (PyVal.str "U")⟩).1,
    (empty_watchset_all_users_new wMembersEnv (PyVal.str "@u1")
      (PyVal.str "!r2") wConfig wNotifyEnv wEmptySt ⟨"!r2", "Room2"⟩
      ⟨"@u1", "join", none, some (PyVal.str "U")⟩).2 rfl rfl (by decide)⟩

/-- Claim C5: an email is sent only for a classified join by a
not-already-known user in a room whose display name at event time is among
the configured watch names (the space name plus the watch names); moreover,
once a new join got past the invite phase, entering the email block is
gated exactly by that name test — the resolved room-id set plays no role
in it. -/
theorem email_only_for_new_watched_name (cfg : Config) (env : NotifyEnv)
    (st : RegistryState) (room : RoomInfo) (event : MemberEvent) :
    ((notify cfg env st room event).emailSent = true →
      (event.membership = "join" ∧
        some event.membership ≠ event.prev_membership) ∧
      user_already_known env.matrix st.watched_room_ids
        (PyVal.str event.state_key) (PyVal.str room.room_id) = false ∧
      room.display_name ∈ watched_rooms cfg) ∧
    (event.membership = "join" →
      some event.membership ≠ event.prev_membership →
      user_already_known env.matrix st.watched_room_ids
        (PyVal.str event.state_key) (PyVal.str room.room_id) = false →
      (if st.space_id = some (PyVal.str room.room_id) then
          run_invites env event.state_key st.to_invite_ids
        else ([], false)).2 = false →
      (notify cfg env st room event).emailAttempted =
        decide (room.display_name ∈ watched_rooms cfg)) := by
  constructor
  · intro hsent
    by_cases hc : event.membership = "join" ∧
        some event.membership ≠ event.prev_membership
    · by_cases hknown : user_already_known env.matrix st.watched_room_ids
          (PyVal.str event.state_key) (PyVal.str room.room_id) = true
      · rw [notify, if_pos hc, if_pos hknown] at hsent
        exact absurd hsent Bool.false_ne_true
      · have hkf : user_already_known env.matrix st.watched_room_ids
            (PyVal.str event.state_key) (PyVal.str room.room_id) = false := by
          revert hknown
          cases user_already_known env.matrix st.watched_room_ids
            (PyVal.str event.state_key) (PyVal.str room.room_id) <;> simp
        refine ⟨hc, hkf, ?_⟩
        by_contra hn
        simp only [notify, if_pos hc, hkf,
          if_neg Bool.false_ne_true] at hsent
        rw [if_neg hn] at hsent
        split_ifs at hsent
    · rw [notify, if_neg hc] at hsent
      exact absurd hsent Bool.false_ne_true
  · intro hjoin hprev hkf hinv
    have hc : event.membership = "join" ∧
        some event.membership ≠ event.prev_membership := ⟨hjoin, hprev⟩
    simp only [notify, if_pos hc, hkf, if_neg Bool.false_ne_true]
    rw [if_neg (by rw [hinv]; exact Bool.false_ne_true)]
    by_cases hn : room.display_name ∈ watched_rooms cfg
    · rw [if_pos hn, decide_eq_true hn]
    · rw [if_neg hn, decide_eq_false hn]

/-- Witness for claim C5: a new user joins a room whose display name Room2
is configured as a watch name; the email goes out and the gating facts
hold at this input. -/
theorem email_only_for_new_watched_name_witness :
    (notify wConfig wNotifyEnv wEmptySt ⟨"!r2", "Room2"⟩
        ⟨"@u1", "join", none, some (PyVal.str "U")⟩).emailSent = true ∧
    (((("join" : String) = "join") ∧
        (some ("join" : String) ≠ (none : Option String))) ∧
      user_already_known wMembersEnv [] (PyVal.str "@u1")
        (PyVal.str "!r2") = false ∧
      ("Room2" : String) ∈ watched_rooms wConfig) :=
  ⟨by decide,
    (email_only_for_new_watched_name wConfig wNotifyEnv wEmptySt
      ⟨"!r2", "Room2"⟩ ⟨"@u1", "join", none, some (PyVal.str "U")⟩).1
      (by decide)⟩

/-- Claim C8: an exception raised while composing or sending the email is
caught inside the handler — whenever the email block is entered the
handler returns normally — and the event loop goes on to hand the next
event to the handler. -/
theorem email_exception_caught (cfg : Config) (env : NotifyEnv)
    (st : RegistryState) (room : RoomInfo) (event : MemberEvent)
    (evs : List (RoomInfo × MemberEvent)) :
    ((notify cfg env st room event).emailAttempted = true →
      (notify cfg env st room event).raised = false) ∧
    run_events cfg env st ((room, event) :: evs) =
      notify cfg env st room event :: run_events cfg env st evs := by
  constructor
  · intro hatt
    by_cases hc : event.membership = "join" ∧
        some event.membership ≠ event.prev_membership
    · by_cases hknown : user_already_known env.matrix st.watched_room_ids
          (PyVal.str event.state_key) (PyVal.str room.room_id) = true
      · rw [notify, if_pos hc, if_pos hknown]
      · have hkf : user_already_known env.matrix st.watched_room_ids
            (PyVal.str event.state_key) (PyVal.str room.room_id) = false := by
          revert hknown
          cases user_already_known env.matrix st.watched_room_ids
            (PyVal.str event.state_key) (PyVal.str room.room_id) <;> simp
        simp only [notify, if_pos hc, hkf,
          if_neg Bool.false_ne_true] at hatt ⊢
        split_ifs at hatt ⊢ <;> rfl
    · rw [notify, if_neg hc]
  · rfl

/-- Notify environment in which the SMTP session raises. -/
def wFailMailEnv : NotifyEnv :=
  { matrix := wMembersEnv,
    inviteOutcome := fun _ _ => InviteOutcome.resp 200,
    emailSendOk := false }

/-- Witness for claim C8: the email block is entered, the send fails, no
email goes out, and the handler still returns normally. -/
theorem email_exception_caught_witness :
    (notify wConfig wFailMailEnv wEmptySt ⟨"!r2", "Room2"⟩
        ⟨"@u1", "join", none, some (PyVal.str "U")⟩).emailAttempted = true ∧
    (notify wConfig wFailMailEnv wEmptySt ⟨"!r2", "Room2"⟩
        ⟨"@u1", "join", none, some (PyVal.str "U")⟩).emailSent = false ∧
    (notify wConfig wFailMailEnv wEmptySt ⟨"!r2", "Room2"⟩
        ⟨"@u1", "join", none, some (PyVal.str "U")⟩).raised = false :=
  ⟨by decide, by decide,
    (email_exception_caught wConfig wFailMailEnv wEmptySt ⟨"!r2", "Room2"⟩
      ⟨"@u1", "join", none, some (PyVal.str "U")⟩ []).1 (by decide)⟩

/-! Helper lemmas about the invite loop. -/

lemma run_invites_no_exn (env : NotifyEnv) (user : String) :
    ∀ ids : List PyVal,
      (∀ r ∈ ids, env.inviteOutcome r user ≠ InviteOutcome.exn) →
      run_invites env user ids = (ids.map (fun r => (r, user)), false)
  | [], _ => rfl
  | rid :: rest, h => by
    rw [run_invites]
    cases hout : env.inviteOutcome rid user with
    | resp c =>
      simp only [run_invites_no_exn env user rest
        (fun r hr => h r (List.mem_cons_of_mem _ hr)), List.map_cons]
    | exn => exact absurd hout (h rid (List.mem_cons_self _ _))

lemma run_invites_targets (env : NotifyEnv) (user : String) :
    ∀ ids : List PyVal, ∀ p ∈ (run_invites env user ids).1,
      p.1 ∈ ids ∧ p.2 = user
  | [] => by simp [run_invites]
  | rid :: rest => by
    intro p hp
    rw [run_invites] at hp
    revert hp
    cases env.inviteOutcome rid user with
    | resp c =>
      intro hp
      rcases List.mem_cons.mp hp with rfl | hp
      · exact ⟨List.mem_cons_self _ _, rfl⟩
      · obtain ⟨h1, h2⟩ := run_invites_targets env user rest p hp
        exact ⟨List.mem_cons_of_mem _ h1, h2⟩
    | exn =>
      intro hp
      rcases List.mem_cons.mp hp with rfl | hp
      · exact ⟨List.mem_cons_self _ _, rfl⟩
      · simp at hp

/-- Claim C4 (amended): for a classified join into the space by a new user,
provided no invite POST raises, exactly one invite attempt is issued per
entry of the resolved invite-target list, in order; every invite attempt
ever issued targets a resolved invite-target room with the joining user;
and invites are issued only for a classified join, by a not-already-known
user, in the room whose id is the resolved SpaceId.  (The unamended claim
fails when a POST raises: the remaining targets are skipped, see the
counterexample.) -/
theorem invites_exactly_per_target (cfg : Config) (env : NotifyEnv)
    (st : RegistryState) (room : RoomInfo) (event : MemberEvent) :
    (event.membership = "join" →
      some event.membership ≠ event.prev_membership →
      user_already_known env.matrix st.watched_room_ids
        (PyVal.str event.state_key) (PyVal.str room.room_id) = false →
      st.space_id = some (PyVal.str room.room_id) →
      (∀ r ∈ st.to_invite_ids,
        env.inviteOutcome r event.state_key ≠ InviteOutcome.exn) →
      (notify cfg env st room event).invites =
        st.to_invite_ids.map (fun r => (r, event.state_key))) ∧
    (∀ p ∈ (notify cfg env st room event).invites,
      p.1 ∈ st.to_invite_ids ∧ p.2 = event.state_key) ∧
    ((notify cfg env st room event).invites ≠ [] →
      (event.membership = "join" ∧
        some event.membership ≠ event.prev_membership) ∧
      user_already_known env.matrix st.watched_room_ids
        (PyVal.str event.state_key) (PyVal.str room.room_id) = false ∧
      st.space_id = some (PyVal.str room.room_id)) := by
  refine ⟨?_, ?_, ?_⟩
  · intro hjoin hprev hkf hsp hnoexn
    have hc : event.membership = "join" ∧
        some event.membership ≠ event.prev_membership := ⟨hjoin, hprev⟩
    simp only [notify, if_pos hc, hkf, if_neg Bool.false_ne_true, if_pos hsp,
      run_invites_no_exn env event.state_key st.to_invite_ids hnoexn]
    split_ifs <;> rfl
  · intro p hp
    by_cases hc : event.membership = "join" ∧
        some event.membership ≠ event.prev_membership
    · by_cases hknown : user_already_known env.matrix st.watched_room_ids
          (PyVal.str event.state_key) (PyVal.str room.room_id) = true
      · rw [notify, if_pos hc, if_pos hknown] at hp
        simp at hp
      · have hkf : user_already_known env.matrix st.watched_room_ids
            (PyVal.str event.state_key) (PyVal.str room.room_id) = false := by
          revert hknown
          cases user_already_known env.matrix st.watched_room_ids
            (PyVal.str event.state_key) (PyVal.str room.room_id) <;> simp
        by_cases hsp : st.space_id = some (PyVal.str room.room_id)
        · simp only [notify, if_pos hc, hkf, if_neg Bool.false_ne_true,
            if_pos hsp] at hp
          split_ifs at hp <;>
            exact run_invites_targets env event.state_key st.to_invite_ids
              p hp
        · simp only [notify, if_pos hc, hkf, if_neg Bool.false_ne_true,
            if_neg hsp] at hp
          split_ifs at hp <;> simp at hp
    · rw [notify, if_neg hc] at hp
      simp at hp
  · intro hne
    by_cases hc : event.membership = "join" ∧
        some event.membership ≠ event.prev_membership
    · by_cases hknown : user_already_known env.matrix st.watched_room_ids
          (PyVal.str event.state_key) (PyVal.str room.room_id) = true
      · rw [notify, if_pos hc, if_pos hknown] at hne
        simp at hne
      · have hkf : user_already_known env.matrix st.watched_room_ids
            (PyVal.str event.state_key) (PyVal.str room.room_id) = false := by
          revert hknown
          cases user_already_known env.matrix st.watched_room_ids
            (PyVal.str event.state_key) (PyVal.str room.room_id) <;> simp
        by_cases hsp : st.space_id = some (PyVal.str room.room_id)
        · exact ⟨hc, hkf, hsp⟩
        · refine absurd ?_ hne
          simp only [notify, if_pos hc, hkf, if_neg Bool.false_ne_true,
            if_neg hsp]
          split_ifs <;> rfl
    · rw [notify, if_neg hc] at hne
      simp at hne

/-- Registry for the invite witnesses: nothing watched, two invite targets,
the space id is r2. -/
def wInviteSt : RegistryState :=
  { watched_room_ids := [],
    to_invite_ids := [PyVal.str "!t1", PyVal.str "!t2"],
    space_id := some (PyVal.str "!r2") }

/-- Witness for claim C4 (amended): a new user joins the space and both
configured targets receive exactly one invite attempt, in order. -/
theorem invites_exactly_per_target_witness :
    (notify wConfig wNotifyEnv wInviteSt ⟨"!r2", "Nowhere"⟩
        ⟨"@u9", "join", none, none⟩).invites =
      [(PyVal.str "!t1", "@u9"), (PyVal.str "!t2", "@u9")] := by
  have h := (invites_exactly_per_target wConfig wNotifyEnv wInviteSt
    ⟨"!r2", "Nowhere"⟩ ⟨"@u9", "join", none, none⟩).1
    rfl (by decide) (by decide) (by decide) (by decide)
  rw [h]
  rfl

/-- Notify environment for the C4 counterexample: the invite POST to t1
raises (connection error), every other one returns 200. -/
def cxInviteEnv : NotifyEnv :=
  { matrix := wMembersEnv,
    inviteOutcome := fun rid _ =>
      if rid = PyVal.str "!t1" then InviteOutcome.exn
      else InviteOutcome.resp 200,
    emailSendOk := true }

/-- Registry for the C4 counterexample: nothing watched, two invite
targets, the space id is s. -/
def cxInviteSt : RegistryState :=
  { watched_room_ids := [],
    to_invite_ids := [PyVal.str "!t1", PyVal.str "!t2"],
    space_id := some (PyVal.str "!s") }

/-- Counterexample to claim C4 as stated: a classified join into the space
by a user not known elsewhere, with t2 a resolved invite target — yet t2
receives no invite attempt, because the POST to t1 raised and aborted the
loop. -/
theorem invites_aborted_counterexample :
    (PyVal.str "!t2") ∈ cxInviteSt.to_invite_ids ∧
    cxInviteSt.space_id = some (PyVal.str "!s") ∧
    user_already_known cxInviteEnv.matrix cxInviteSt.watched_room_ids
      (PyVal.str "@nv") (PyVal.str "!s") = false ∧
    (notify wConfig cxInviteEnv cxInviteSt ⟨"!s", "SpaceRoom"⟩
      ⟨"@nv", "join", none, none⟩).sawJoin = true ∧
    (notify wConfig cxInviteEnv cxInviteSt ⟨"!s", "SpaceRoom"⟩
      ⟨"@nv", "join", none, none⟩).invites = [(PyVal.str "!t1", "@nv")] := by
  decide

/-- Claim C7 (amended): within one event, an invite POST that returns an
error response does not prevent the attempts for the remaining target
rooms — the script never reads the response status, so every target is
attempted exactly once whenever all POSTs return; but an invite POST that
raises aborts the remaining attempts (the unamended independence claim
fails there, see the counterexample). -/
theorem invite_failures_response_independent (env : NotifyEnv)
    (user : String) :
    (∀ ids : List PyVal,
      (∀ r ∈ ids, ∃ c, env.inviteOutcome r user = InviteOutcome.resp c) →
      run_invites env user ids = (ids.map (fun r => (r, user)), false)) ∧
    (∀ (rid : PyVal) (rest : List PyVal),
      env.inviteOutcome rid user = InviteOutcome.exn →
      run_invites env user (rid :: rest) = ([(rid, user)], true)) := by
  constructor
  · intro ids h
    refine run_invites_no_exn env user ids (fun r hr => ?_)
    obtain ⟨c, hc⟩ := h r hr
    rw [hc]
    exact fun hcontra => InviteOutcome.noConfusion hcontra
  · intro rid rest hexn
    rw [run_invites]
    simp only [hexn]

/-- Notify environment for the C7 counterexample: the POST to c1 raises,
the POST to c2 would return 200. -/
def cx7Env : NotifyEnv :=
  { matrix := wMembersEnv,
    inviteOutcome := fun rid _ =>
      if rid = PyVal.str "!c1" then InviteOutcome.exn
      else InviteOutcome.resp 200,
    emailSendOk := true }

/-- Registry for the C7 counterexample. -/
def cx7St : RegistryState :=
  { watched_room_ids := [],
    to_invite_ids := [PyVal.str "!c1", PyVal.str "!c2"],
    space_id := some (PyVal.str "!sp2") }

/-- Counterexample to claim C7 as stated: the invite for c1 fails (the
POST raises), and that failure does prevent the attempt for the remaining
target c2 — the handler stops after c1 and propagates the exception. -/
theorem invite_failure_aborts_rest_counterexample :
    cx7Env.inviteOutcome (PyVal.str "!c1") "@w" = InviteOutcome.exn ∧
    (PyVal.str "!c2") ∈ cx7St.to_invite_ids ∧
    run_invites cx7Env "@w" cx7St.to_invite_ids =
      ([(PyVal.str "!c1", "@w")], true) ∧
    (notify wConfig cx7Env cx7St ⟨"!sp2", "X"⟩
      ⟨"@w", "join", none, none⟩).invites = [(PyVal.str "!c1", "@w")] ∧
    (notify wConfig cx7Env cx7St ⟨"!sp2", "X"⟩
      ⟨"@w", "join", none, none⟩).raised = true := by
  decide

/-- Notify environment for the C7 witness: the POST to d1 returns the
error status 500, the POST to d2 returns 200. -/
def w7Env : NotifyEnv :=
  { matrix := wMembersEnv,
    inviteOutcome := fun rid _ =>
      if rid = PyVal.str "!d1" then InviteOutcome.resp 500
      else InviteOutcome.resp 200,
    emailSendOk := true }

/-- Witness for claim C7 (amended): the first invite fails with status 500
and the second target is still attempted. -/
theorem invite_failures_response_independent_witness :
    w7Env.inviteOutcome (PyVal.str "!d1") "@w" = InviteOutcome.resp 500 ∧
    run_invites w7Env "@w" [PyVal.str "!d1", PyVal.str "!d2"] =
      ([(PyVal.str "!d1", "@w"), (PyVal.str "!d2", "@w")], false) :=
  ⟨by decide,
    (invite_failures_response_independent w7Env "@w").1
      [PyVal.str "!d1", PyVal.str "!d2"]
      (by
        intro r hr
        rcases List.mem_cons.mp hr with rfl | hr
        · exact ⟨500, by decide⟩
        · rcases List.mem_cons.mp hr with rfl | hr
          · exact ⟨200, by decide⟩
          · simp at hr)⟩

/-- What one run of the resolution loop contributes to watched_room_ids,
as a function of the server state alone: the joined room ids, in order,
whose name state resolves with status 200 to one of the configured watched
names.  (The malformed case never occurs in a run that does not raise.) -/
def resolveWatched (env : MatrixEnv) (cfg : Config) : List PyVal → List PyVal
  | [] => []
  | rid :: rest =>
    let r := env.nameResp rid
    if r.status_code ≠ 200 then resolveWatched env cfg rest
    else
      match r.body with
      | NameBody.malformed => []
      | NameBody.name n =>
        (if n ∈ (watched_rooms cfg).map PyVal.str then [rid] else []) ++
          resolveWatched env cfg rest

/-- What one run of the resolution loop contributes to to_invite_ids, as a
function of the server state alone. -/
def resolveInvite (env : MatrixEnv) (cfg : Config) : List PyVal → List PyVal
  | [] => []
  | rid :: rest =>
    let r := env.nameResp rid
    if r.status_code ≠ 200 then resolveInvite env cfg rest
    else
      match r.body with
      | NameBody.malformed => []
      | NameBody.name n =>
        (if n ∈ (to_invite cfg).map PyVal.str then [rid] else []) ++
          resolveInvite env cfg rest

/-- The space id one run of the resolution loop would write, as a function
of the server state alone: the LAST joined room whose name equals the
configured space name, or none when no joined room carries that name. -/
def resolveSpace (env : MatrixEnv) (cfg : Config) : List PyVal → Option PyVal
  | [] => none
  | rid :: rest =>
    let r := env.nameResp rid
    if r.status_code ≠ 200 then resolveSpace env cfg rest
    else
      match r.body with
      | NameBody.malformed => none
      | NameBody.name n =>
        match resolveSpace env cfg rest with
        | some x => some x
        | none => if n = PyVal.str cfg.space then some rid else none

lemma scan_rooms_spec (env : MatrixEnv) (cfg : Config) :
    ∀ (l : List PyVal) (st : RegistryState),
      (scan_rooms env cfg l st).2 = false →
      (scan_rooms env cfg l st).1.watched_room_ids =
        st.watched_room_ids ++ resolveWatched env cfg l ∧
      (scan_rooms env cfg l st).1.to_invite_ids =
        st.to_invite_ids ++ resolveInvite env cfg l ∧
      (scan_rooms env cfg l st).1.space_id =
        (match resolveSpace env cfg l with
          | some x => some x
          | none => st.space_id)
  | [], st => by
    intro _
    simp [scan_rooms, resolveWatched, resolveInvite, resolveSpace]
  | rid :: rest, st => by
    intro hflag
    simp only [scan_rooms, resolveWatched, resolveInvite, resolveSpace]
      at hflag ⊢
    by_cases h200 : (env.nameResp rid).status_code ≠ 200
    · simp only [if_pos h200] at hflag ⊢
      exact scan_rooms_spec env cfg rest st hflag
    · simp only [if_neg h200] at hflag ⊢
      cases hbody : (env.nameResp rid).body with
      | malformed =>
        rw [hbody] at hflag
        simp at hflag
      | name n =>
        simp only [hbody] at hflag ⊢
        split_ifs at hflag ⊢ <;>
          · obtain ⟨ihw, ihi, ihs⟩ := scan_rooms_spec env cfg rest _ hflag
            refine ⟨by rw [ihw]; simp, by rw [ihi]; simp, ?_⟩
            rw [ihs]
            cases resolveSpace env cfg rest <;> simp

/-- Claim C9 (amended): an invocation of populate_watched_room_ids that
finds the joined-rooms list and completes without raising fully recomputes
watched_room_ids and to_invite_ids from the current server-side room list
(the prior lists are discarded: last write wins, no merge) — but space_id
is only overwritten when some joined room currently carries the space
name; when none does, the SpaceId of an earlier invocation persists (the
unamended claim fails there, see the counterexample; the variable is never
reset on lines 139-140). -/
theorem populate_full_recompute_except_space (env : MatrixEnv)
    (cfg : Config) (st st' : RegistryState) (l : List PyVal)
    (h200 : env.joinedRoomsResp.status_code = 200)
    (hbody : env.joinedRoomsResp.body = JoinedRoomsBody.rooms l)
    (hok : populate_watched_room_ids env cfg st = (st', false)) :
    st'.watched_room_ids = resolveWatched env cfg l ∧
    st'.to_invite_ids = resolveInvite env cfg l ∧
    st'.space_id =
      (match resolveSpace env cfg l with
        | some x => some x
        | none => st.space_id) := by
  rw [populate_watched_room_ids,
    if_neg (fun hne => hne h200)] at hok
  rw [hbody] at hok
  have hok' : scan_rooms env cfg l
      { st with watched_room_ids := [], to_invite_ids := [] } =
      (st', false) := hok
  have hflag : (scan_rooms env cfg l
      { st with watched_room_ids := [], to_invite_ids := [] }).2 = false := by
    rw [hok']
  obtain ⟨hw, hi, hs⟩ := scan_rooms_spec env cfg l
    { st with watched_room_ids := [], to_invite_ids := [] } hflag
  rw [hok'] at hw hi hs
  simpa using ⟨hw, hi, hs⟩

/-- Matrix environment for the C9 counterexample: the bot is joined to the
single room r1, whose current name Other is not the configured space name
(and not a watched or invite name either). -/
def cxPopulateEnv : MatrixEnv :=
  { membersResp := fun _ _ => ⟨404, MembersBody.malformed⟩,
    joinedRoomsResp := ⟨200, JoinedRoomsBody.rooms [PyVal.str "!r1"]⟩,
    nameResp := fun rid =>
      if rid = PyVal.str "!r1" then ⟨200, NameBody.name (PyVal.str "Other")⟩
      else ⟨404, NameBody.malformed⟩ }

/-- Registry state left by an earlier resolution: one stale watched id and
a stale space id. -/
def cxPopulateSt : RegistryState :=
  { watched_room_ids := [PyVal.str "!x"],
    to_invite_ids := [],
    space_id := some (PyVal.str "!old") }

/-- Counterexample to claim C9 as stated: the invocation completes, the
watched-room list is fully recomputed (the stale id x is gone), no joined
room carries the space name — yet space_id still holds the stale id old
from the earlier invocation. -/
theorem populate_stale_space_counterexample :
    cxPopulateEnv.joinedRoomsResp.status_code = 200 ∧
    cxPopulateEnv.joinedRoomsResp.body =
      JoinedRoomsBody.rooms [PyVal.str "!r1"] ∧
    (cxPopulateEnv.nameResp (PyVal.str "!r1")).body =
      NameBody.name (PyVal.str "Other") ∧
    PyVal.str "Other" ≠ PyVal.str wConfig.space ∧
    (populate_watched_room_ids cxPopulateEnv wConfig cxPopulateSt).2
      = false ∧
    (populate_watched_room_ids cxPopulateEnv wConfig
      cxPopulateSt).1.watched_room_ids = [] ∧
    (populate_watched_room_ids cxPopulateEnv wConfig
      cxPopulateSt).1.space_id = some (PyVal.str "!old") := by
  decide

/-- Matrix environment for the C9 witness: two joined rooms, sA named
Space (the configured space name) and tA named Target (the configured
invite name). -/
def wPopulateEnv : MatrixEnv :=
  { membersResp := fun _ _ => ⟨404, MembersBody.malformed⟩,
    joinedRoomsResp :=
      ⟨200, JoinedRoomsBody.rooms [PyVal.str "!sA", PyVal.str "!tA"]⟩,
    nameResp := fun rid =>
      if rid = PyVal.str "!sA" then ⟨200, NameBody.name (PyVal.str "Space")⟩
      else if rid = PyVal.str "!tA" then
        ⟨200, NameBody.name (PyVal.str "Target")⟩
      else ⟨404, NameBody.malformed⟩ }

/-- Witness for claim C9 (amended): starting from the stale registry, the
watched and invite lists are recomputed from the two joined rooms and the
space id is overwritten with the id of the room now named Space. -/
theorem populate_full_recompute_except_space_witness :
    (populate_watched_room_ids wPopulateEnv wConfig
      cxPopulateSt).1.watched_room_ids =
        resolveWatched wPopulateEnv wConfig
          [PyVal.str "!sA", PyVal.str "!tA"] ∧
    (populate_watched_room_ids wPopulateEnv wConfig
      cxPopulateSt).1.space_id =
        (match resolveSpace wPopulateEnv wConfig
            [PyVal.str "!sA", PyVal.str "!tA"] with
          | some x => some x
          | none => cxPopulateSt.space_id) := by
  have hok : populate_watched_room_ids wPopulateEnv wConfig cxPopulateSt =
      ({ watched_room_ids := [PyVal.str "!sA"],
         to_invite_ids := [PyVal.str "!tA"],
         space_id := some (PyVal.str "!sA") }, false) := by decide
  have h := populate_full_recompute_except_space wPopulateEnv wConfig
    cxPopulateSt _ [PyVal.str "!sA", PyVal.str "!tA"] (by decide) (by decide)
    hok
  rw [hok]
  exact ⟨h.1, h.2.2⟩
